import Mathlib

/-!
Shallow embedding of `src/src-tauri/src/mcp.rs` from the tauri-todo-mcp
repository: a todo MCP router backed by a persistent JSON document
(`store.json`) whose key `"todos"` holds the todo list.

The persistent store is modelled as its durably saved JSON document: an
association list from string keys to JSON values.  Each router operation is
the pure document transformer obtained by inlining the `reload → read →
compute → set → save` sequence of the Rust handler under serialized
execution; store open/reload/save I/O failures (which the Rust code maps to
`ToolError::ExecutionError`) are outside the model, so the `Result` values
the handlers return are always `ok` here, exactly as in the I/O-error-free
executions of the code.
-/

/-- JSON values as held by the store and by `serde_json::Value`.  Numbers are
modelled as integers: every number the program itself writes is a `u64`, and
the claims under study never involve fractional numbers. -/
inductive Json where
  | null : Json
  | bool (b : Bool) : Json
  | num (n : Int) : Json
  | str (s : String) : Json
  | arr (elems : List Json) : Json
  | obj (fields : List (String × Json)) : Json

/-- `struct Todo { id: u64, text: String, done: bool }` (mcp.rs:19-24).
`id` is a `u64` in Rust; here a `Nat`, kept below `2^64` by construction
(creation casts with `% 2^64`, deserialization rejects values outside
`u64` range, mirroring serde). -/
structure Todo where
  id : Nat
  text : String
  done : Bool
deriving Repr, DecidableEq

/-- `mcp_core::Content`; the router only ever builds `Content::text(..)`. -/
inductive Content where
  | text (s : String) : Content
deriving Repr, DecidableEq

/-- `mcp_core::ToolError` variants used by the router. -/
inductive ToolError where
  | notFound (name : String) : ToolError
  | invalidParameters (field : String) : ToolError
  | executionError (msg : String) : ToolError
deriving Repr, DecidableEq

/-- Store effects performed by a handler against the backing store, recorded
in program order; used to state that `update_todo` saves even when the id is
not found. -/
inductive StoreEff where
  | reload : StoreEff
  | setKey (key : String) (value : Json) : StoreEff
  | save : StoreEff

/-- The persistent JSON document: string keys to JSON values. -/
def Doc : Type := List (String × Json)

/-- `store.set(key, value)`: replace or insert the binding for `key`. -/
def Doc.setKey (doc : Doc) (key : String) (value : Json) : Doc :=
  (key, value) :: doc.filter (fun p => p.1 ≠ key)

/-- `store.get(key)`: the value bound to `key`, if any. -/
def Doc.getKey (doc : Doc) (key : String) : Option Json :=
  List.lookup key doc

/-- `serde_json::Value::as_u64`: `some` exactly on integers in `u64` range. -/
def Json.asU64 : Json → Option Nat
  | .num n => if 0 ≤ n ∧ n < 2 ^ 64 then some n.toNat else none
  | _ => none

/-- `serde_json::Value::as_str`. -/
def Json.asStr : Json → Option String
  | .str s => some s
  | _ => none

/-- `serde_json::Value::as_bool`. -/
def Json.asBool : Json → Option Bool
  | .bool b => some b
  | _ => none

/-- `value[key]` on a `serde_json::Value` in read position: the bound value
when `value` is an object with that key, `Null` otherwise. -/
def Json.index (v : Json) (key : String) : Json :=
  match v with
  | .obj fields => (List.lookup key fields).getD .null
  | _ => .null

/-- Deserializing one `Todo` from a JSON value (serde derive: an object with
an in-range `id` number, a `text` string and a `done` bool). -/
def decodeTodo (v : Json) : Option Todo :=
  match v with
  | .obj fields =>
      ((List.lookup "id" fields).bind Json.asU64).bind (fun id =>
        ((List.lookup "text" fields).bind Json.asStr).bind (fun text =>
          ((List.lookup "done" fields).bind Json.asBool).map (fun done =>
            { id := id, text := text, done := done })))
  | _ => none

/-- Deserializing a `Vec<Todo>` element by element, failing if any element
fails (serde sequence deserialization). -/
def decodeTodoList : List Json → Option (List Todo)
  | [] => some []
  | v :: vs =>
      (decodeTodo v).bind (fun t => (decodeTodoList vs).map (fun ts => t :: ts))

/-- `serde_json::from_value::<Vec<Todo>>`: only arrays deserialize. -/
def decodeTodos (v : Json) : Option (List Todo) :=
  match v with
  | .arr elems => decodeTodoList elems
  | _ => none

/-- Serializing one `Todo` (serde derive writes fields in declaration
order). -/
def encodeTodo (t : Todo) : Json :=
  .obj [("id", .num t.id), ("text", .str t.text), ("done", .bool t.done)]

/-- Serializing a `Vec<Todo>`. -/
def encodeTodos (ts : List Todo) : Json :=
  .arr (ts.map encodeTodo)

/-- One hexadecimal digit, lower case, as in serde's `\u00XX` escapes. -/
def hexDigit (n : Nat) : Char :=
  if n < 10 then Char.ofNat (48 + n) else Char.ofNat (87 + n)

/-- JSON string escaping as performed by `serde_json::to_string`. -/
def escapeChar (c : Char) : String :=
  if c = '"' then "\\\""
  else if c = '\\' then "\\\\"
  else if c = Char.ofNat 8 then "\\b"
  else if c = Char.ofNat 9 then "\\t"
  else if c = Char.ofNat 10 then "\\n"
  else if c = Char.ofNat 12 then "\\f"
  else if c = Char.ofNat 13 then "\\r"
  else if c.toNat < 32 then
    "\\u00" ++ String.mk [hexDigit (c.toNat / 16), hexDigit (c.toNat % 16)]
  else String.singleton c

/-- Escape a whole string for JSON output. -/
def escapeString (s : String) : String :=
  String.join (s.toList.map escapeChar)

mutual

/-- Compact JSON printing, as `serde_json::to_string` produces it. -/
def printJson : Json → String
  | .null => "null"
  | .bool true => "true"
  | .bool false => "false"
  | .num n => toString n
  | .str s => "\"" ++ escapeString s ++ "\""
  | .arr elems => "[" ++ printJsonList elems ++ "]"
  | .obj fields => "\x7b" ++ printJsonFields fields ++ "\x7d"

/-- Comma-separated printing of array elements. -/
def printJsonList : List Json → String
  | [] => ""
  | [v] => printJson v
  | v :: vs => printJson v ++ "," ++ printJsonList vs

/-- Comma-separated printing of object fields. -/
def printJsonFields : List (String × Json) → String
  | [] => ""
  | [(k, v)] => "\"" ++ escapeString k ++ "\":" ++ printJson v
  | (k, v) :: fs =>
      "\"" ++ escapeString k ++ "\":" ++ printJson v ++ "," ++ printJsonFields fs

end

/-- `chrono::Utc::now().timestamp_millis() as u64`: the `i64` millisecond
timestamp reinterpreted as a `u64` (two's-complement cast). -/
def u64cast (n : Int) : Nat :=
  (n % (2 : Int) ^ 64).toNat

namespace TodoRouter

/-- The store key the router uses (`TODOS_KEY`). -/
def TODOS_KEY : String := "todos"

/-- The pure content of `get_todos` (mcp.rs:39-52): reload, read the
`"todos"` key, deserialize as `Vec<Todo>`, defaulting to the empty list when
the key is absent or deserialization fails. -/
def getTodosList (doc : Doc) : List Todo :=
  ((doc.getKey TODOS_KEY).bind decodeTodos).getD []

/-- `get_todos` as the router returns it: a `Result<Vec<Todo>, ToolError>`
that is `Ok` in every I/O-error-free execution. -/
def get_todos (doc : Doc) : Except ToolError (List Todo) :=
  .ok (getTodosList doc)

/-- `add_todo` (mcp.rs:54-75): reload and read the current list, build a new
`Todo` with the time-derived id, `push` it, set and save.  Returns the
created todo and the new document; `now` is the `timestamp_millis()` value at
the call. -/
def add_todo (doc : Doc) (now : Int) (text : String) :
    (Except ToolError Todo) × Doc :=
  let todos := getTodosList doc
  let id := u64cast now
  let todo : Todo := { id := id, text := text, done := false }
  (.ok todo, doc.setKey TODOS_KEY (encodeTodos (todos ++ [todo])))

/-- `remove_todo` (mcp.rs:77-92): reload and read the current list,
`retain` the todos whose id differs, set and save. -/
def remove_todo (doc : Doc) (id : Nat) :
    (Except ToolError Unit) × Doc :=
  let todos := getTodosList doc
  (.ok (), doc.setKey TODOS_KEY (encodeTodos (todos.filter (fun t => t.id ≠ id))))

/-- `Iterator::position`: index of the first element satisfying `p`. -/
def position (p : Todo → Bool) : List Todo → Option Nat
  | [] => none
  | t :: ts => if p t then some 0 else (position p ts).map (· + 1)

/-- `update_todo` (mcp.rs:94-112): reload and read the current list; if some
element's id matches, overwrite it in place and set; save in either case.
The third component records the store effects in program order. -/
def update_todo (doc : Doc) (todo : Todo) :
    (Except ToolError Unit) × Doc × List StoreEff :=
  let todos := getTodosList doc
  match position (fun t => t.id == todo.id) todos with
  | some i =>
      let v := encodeTodos (todos.set i todo)
      (.ok (), doc.setKey TODOS_KEY v, [.reload, .setKey TODOS_KEY v, .save])
  | none => (.ok (), doc, [.reload, .save])

end TodoRouter

/-- A tool descriptor: `Tool::new(name, description, input_schema)`. -/
structure Tool where
  name : String
  description : String
  inputSchema : Json

namespace TodoRouter

/-- `capabilities` advertised at startup.  Modelled from the spec: the
`CapabilitiesBuilder` lives in the external `mcp_server` crate; §6 of the
spec reads the advertisement as one boolean flag per category
(tools-enabled, resources-enabled, prompts-enabled). -/
structure ServerCapabilities where
  toolsEnabled : Bool
  resourcesEnabled : Bool
  promptsEnabled : Bool
deriving Repr, DecidableEq

/-- `capabilities` (mcp.rs:124-130): `with_tools(false)`,
`with_resources(false, false)`, `with_prompts(false)`. -/
def capabilities : ServerCapabilities :=
  { toolsEnabled := false, resourcesEnabled := false, promptsEnabled := false }

/-- `list_tools` (mcp.rs:132-189): the static four-tool catalog with its
argument schemas, bit-exact. -/
def list_tools : List Tool :=
  [ { name := "get_todos"
      description := "Get Todos"
      inputSchema := .obj
        [ ("type", .str "object")
        , ("properties", .obj [])
        , ("required", .arr []) ] }
  , { name := "add_todo"
      description := "Add Todo"
      inputSchema := .obj
        [ ("type", .str "object")
        , ("properties", .obj [("text", .obj [("type", .str "string")])])
        , ("required", .arr [.str "text"]) ] }
  , { name := "remove_todo"
      description := "Remove Todo"
      inputSchema := .obj
        [ ("type", .str "object")
        , ("properties", .obj [("id", .obj [("type", .str "integer")])])
        , ("required", .arr [.str "id"]) ] }
  , { name := "update_todo"
      description := "Update Todo"
      inputSchema := .obj
        [ ("type", .str "object")
        , ("properties", .obj
            [ ("id", .obj [("type", .str "integer")])
            , ("text", .obj [("type", .str "string")])
            , ("done", .obj [("type", .str "boolean")]) ])
        , ("required", .arr [.str "id", .str "text", .str "done"]) ] }
  ]

/-- `list_resources` (mcp.rs:241-243). -/
def list_resources : List Unit := []

/-- `read_resource` (mcp.rs:245-251): always `NotFound(uri)`. -/
def read_resource (uri : String) : Except String String :=
  .error uri

/-- `list_prompts` (mcp.rs:253-255). -/
def list_prompts : List Unit := []

/-- `get_prompt` (mcp.rs:257-263): always `NotFound(prompt_name)`. -/
def get_prompt (prompt_name : String) : Except String String :=
  .error prompt_name

/-- `call_tool` (mcp.rs:191-239): dispatch on the tool name, extract and
type-check the arguments in program order, run the handler, encode the
result.  Returns the response and the document after the call; `now` is the
millisecond timestamp at the call, used only by `add_todo`. -/
def call_tool (doc : Doc) (now : Int) (tool_name : String) (arguments : Json) :
    (Except ToolError (List Content)) × Doc :=
  if tool_name = "get_todos" then
    match get_todos doc with
    | .ok todos => (.ok [.text (printJson (encodeTodos todos))], doc)
    | .error e => (.error e, doc)
  else if tool_name = "add_todo" then
    match (arguments.index "text").asStr with
    | none => (.error (.invalidParameters "text"), doc)
    | some text =>
        match add_todo doc now text with
        | (.ok todo, doc') => (.ok [.text (printJson (encodeTodo todo))], doc')
        | (.error e, doc') => (.error e, doc')
  else if tool_name = "remove_todo" then
    match (arguments.index "id").asU64 with
    | none => (.error (.invalidParameters "id"), doc)
    | some id =>
        match remove_todo doc id with
        | (.ok _, doc') => (.ok [.text ""], doc')
        | (.error e, doc') => (.error e, doc')
  else if tool_name = "update_todo" then
    match (arguments.index "id").asU64 with
    | none => (.error (.invalidParameters "id"), doc)
    | some id =>
        match (arguments.index "text").asStr with
        | none => (.error (.invalidParameters "text"), doc)
        | some text =>
            match (arguments.index "done").asBool with
            | none => (.error (.invalidParameters "done"), doc)
            | some done =>
                match update_todo doc { id := id, text := text, done := done } with
                | (.ok _, doc', _) => (.ok [.text ""], doc')
                | (.error e, doc', _) => (.error e, doc')
  else (.error (.notFound tool_name), doc)

end TodoRouter

/-- A serialized mutating call: the three mutating tools with their decoded
arguments (`now` is the clock value observed by an `add`). -/
inductive Op where
  | add (now : Int) (text : String) : Op
  | remove (id : Nat) : Op
  | update (todo : Todo) : Op

/-- The document after one serialized mutating call. -/
def applyOp (doc : Doc) : Op → Doc
  | .add now text => (TodoRouter.add_todo doc now text).2
  | .remove id => (TodoRouter.remove_todo doc id).2
  | .update todo => (TodoRouter.update_todo doc todo).2.1

/-- The document after a finite sequence of serialized mutating calls. -/
def runOps (doc : Doc) (ops : List Op) : Doc :=
  ops.foldl applyOp doc

/-- Reference model of `update`: replace the first element whose id matches,
leave the rest untouched. -/
def replaceFirst (ts : List Todo) (todo : Todo) : List Todo :=
  match ts with
  | [] => []
  | t :: rest =>
      if t.id = todo.id then todo :: rest else t :: replaceFirst rest todo

/-- Reference model of one call on the plain todo list: append for `add`,
filter for `remove`, first-match replacement for `update`. -/
def refStep (ts : List Todo) : Op → List Todo
  | .add now text => ts ++ [{ id := u64cast now, text := text, done := false }]
  | .remove id => ts.filter (fun t => t.id ≠ id)
  | .update todo => replaceFirst ts todo

/-- Reference model of a call sequence. -/
def refRun (ts : List Todo) (ops : List Op) : List Todo :=
  ops.foldl refStep ts

/-! ### Basic lemmas about the store and (de)serialization -/

theorem Doc.getKey_setKey_self (doc : Doc) (k : String) (v : Json) :
    (doc.setKey k v).getKey k = some v := by
  simp [Doc.setKey, Doc.getKey, List.lookup]

theorem u64cast_lt (n : Int) : u64cast n < 2 ^ 64 := by
  have h0 : 0 ≤ n % (2 : Int) ^ 64 := Int.emod_nonneg n (by norm_num)
  have h1 : n % (2 : Int) ^ 64 < (2 : Int) ^ 64 :=
    Int.emod_lt_of_pos n (by norm_num)
  unfold u64cast
  omega

theorem Json.asU64_lt (v : Json) (n : Nat) (h : v.asU64 = some n) :
    n < 2 ^ 64 := by
  cases v <;> simp [Json.asU64] at h
  case num m => omega

theorem decodeTodo_encodeTodo (t : Todo) (h : t.id < 2 ^ 64) :
    decodeTodo (encodeTodo t) = some t := by
  have h1 : (0 : Int) ≤ (t.id : Int) ∧ ((t.id : Int) < 2 ^ 64) :=
    ⟨Int.natCast_nonneg t.id, by exact_mod_cast h⟩
  have hid : (List.lookup "id"
      [("id", Json.num (t.id : Int)), ("text", Json.str t.text),
        ("done", Json.bool t.done)]).bind Json.asU64 = some t.id := by
    have step : List.lookup "id"
        [("id", Json.num (t.id : Int)), ("text", Json.str t.text),
          ("done", Json.bool t.done)] = some (Json.num (t.id : Int)) := rfl
    rw [step, Option.some_bind]
    simp only [Json.asU64, if_pos h1, Int.toNat_natCast]
  have htext : (List.lookup "text"
      [("id", Json.num (t.id : Int)), ("text", Json.str t.text),
        ("done", Json.bool t.done)]).bind Json.asStr = some t.text := rfl
  have hdone : (List.lookup "done"
      [("id", Json.num (t.id : Int)), ("text", Json.str t.text),
        ("done", Json.bool t.done)]).bind Json.asBool = some t.done := rfl
  simp only [decodeTodo, encodeTodo]
  rw [hid, Option.some_bind, htext, Option.some_bind, hdone]
  rfl

theorem Option.bindAsU64_lt (x : Option Json) (n : Nat)
    (h : x.bind Json.asU64 = some n) : n < 2 ^ 64 := by
  cases x with
  | none => exact absurd h (by simp)
  | some v => exact Json.asU64_lt v n (by simpa using h)

theorem decodeTodo_lt (v : Json) (t : Todo) (h : decodeTodo v = some t) :
    t.id < 2 ^ 64 := by
  cases v with
  | obj fields =>
      simp only [decodeTodo, Option.bind_eq_some, Option.map_eq_some'] at h
      rcases h with ⟨id, ⟨idv, _, hasu⟩, text, _, done, _, ht⟩
      rw [← ht]
      exact Json.asU64_lt idv id hasu
  | null => exact absurd h (by simp [decodeTodo])
  | bool b => exact absurd h (by simp [decodeTodo])
  | num n => exact absurd h (by simp [decodeTodo])
  | str s => exact absurd h (by simp [decodeTodo])
  | arr elems => exact absurd h (by simp [decodeTodo])

theorem decodeTodoList_encode (ts : List Todo) (h : ∀ t ∈ ts, t.id < 2 ^ 64) :
    decodeTodoList (ts.map encodeTodo) = some ts := by
  induction ts with
  | nil => simp [decodeTodoList]
  | cons t rest ih =>
      have ht : t.id < 2 ^ 64 := h t (by simp)
      have hrest := ih (fun x hx => h x (by simp [hx]))
      simp only [List.map_cons, decodeTodoList]
      rw [decodeTodo_encodeTodo t ht, Option.some_bind, hrest, Option.map_some']

theorem decodeTodoList_lt (vs : List Json) (ts : List Todo)
    (h : decodeTodoList vs = some ts) : ∀ t ∈ ts, t.id < 2 ^ 64 := by
  induction vs generalizing ts with
  | nil =>
      simp only [decodeTodoList, Option.some.injEq] at h
      subst h
      intro t ht
      cases ht
  | cons v rest ih =>
      simp only [decodeTodoList, Option.bind_eq_some, Option.map_eq_some'] at h
      rcases h with ⟨t0, ht0, ts0, hts0, hcons⟩
      subst hcons
      intro t ht
      rcases List.mem_cons.mp ht with rfl | hmem
      · exact decodeTodo_lt v t ht0
      · exact ih ts0 hts0 t hmem

namespace TodoRouter

theorem getTodosList_lt (doc : Doc) : ∀ t ∈ getTodosList doc, t.id < 2 ^ 64 := by
  unfold getTodosList
  cases hk : doc.getKey TODOS_KEY with
  | none => simp
  | some v =>
      cases v <;> simp [decodeTodos]
      case arr elems =>
        cases hd : decodeTodoList elems with
        | none => simp
        | some ts =>
            simpa using decodeTodoList_lt elems ts hd

theorem getTodosList_setKey (doc : Doc) (ts : List Todo)
    (h : ∀ t ∈ ts, t.id < 2 ^ 64) :
    getTodosList (doc.setKey TODOS_KEY (encodeTodos ts)) = ts := by
  unfold getTodosList
  rw [Doc.getKey_setKey_self]
  simp [encodeTodos, decodeTodos, decodeTodoList_encode ts h]

end TodoRouter

/-! ### The `position`-based update agrees with first-match replacement -/

theorem position_eq_none (p : Todo → Bool) (ts : List Todo)
    (h : TodoRouter.position p ts = none) : ∀ t ∈ ts, p t = false := by
  induction ts with
  | nil => intro t ht; cases ht
  | cons x rest ih =>
      simp only [TodoRouter.position] at h
      intro t ht
      by_cases hx : p x
      · rw [if_pos hx] at h; cases h
      · rw [if_neg hx] at h
        rcases List.mem_cons.mp ht with rfl | hmem
        · exact Bool.eq_false_iff.mpr hx
        · cases hrest : TodoRouter.position p rest with
          | none => exact ih hrest t hmem
          | some j => rw [hrest] at h; cases h

theorem position_some_mem (p : Todo → Bool) (ts : List Todo) (i : Nat)
    (h : TodoRouter.position p ts = some i) : ∃ t ∈ ts, p t = true := by
  induction ts generalizing i with
  | nil => cases h
  | cons x rest ih =>
      simp only [TodoRouter.position] at h
      by_cases hx : p x
      · exact ⟨x, by simp, hx⟩
      · rw [if_neg hx] at h
        cases hrest : TodoRouter.position p rest with
        | none => rw [hrest] at h; cases h
        | some j =>
            rcases ih j hrest with ⟨t, hmem, hp⟩
            exact ⟨t, by simp [hmem], hp⟩

theorem replaceFirst_of_no_match (ts : List Todo) (todo : Todo)
    (h : ∀ t ∈ ts, t.id ≠ todo.id) : replaceFirst ts todo = ts := by
  induction ts with
  | nil => rfl
  | cons x rest ih =>
      have hx : x.id ≠ todo.id := h x (by simp)
      simp only [replaceFirst, if_neg hx]
      rw [ih (fun t ht => h t (by simp [ht]))]

theorem set_position_eq_replaceFirst (ts : List Todo) (todo : Todo) (i : Nat)
    (h : TodoRouter.position (fun t => t.id == todo.id) ts = some i) :
    ts.set i todo = replaceFirst ts todo := by
  induction ts generalizing i with
  | nil => cases h
  | cons x rest ih =>
      simp only [TodoRouter.position] at h
      by_cases hx : x.id = todo.id
      · rw [if_pos (by simp [hx])] at h
        cases h
        simp [List.set, replaceFirst, if_pos hx]
      · rw [if_neg (by simp [hx])] at h
        cases hrest : TodoRouter.position (fun t => t.id == todo.id) rest with
        | none => rw [hrest] at h; cases h
        | some j =>
            rw [hrest] at h
            cases h
            simp only [List.set, replaceFirst, if_neg hx]
            rw [ih j hrest]

theorem replaceFirst_mem (ts : List Todo) (todo t : Todo)
    (h : t ∈ replaceFirst ts todo) : t ∈ ts ∨ t = todo := by
  induction ts with
  | nil => cases h
  | cons x rest ih =>
      simp only [replaceFirst] at h
      by_cases hx : x.id = todo.id
      · rw [if_pos hx] at h
        rcases List.mem_cons.mp h with rfl | hmem
        · right; rfl
        · left; simp [hmem]
      · rw [if_neg hx] at h
        rcases List.mem_cons.mp h with rfl | hmem
        · left; simp
        · rcases ih hmem with hmem2 | rfl
          · left; simp [hmem2]
          · right; rfl

/-! ### The todo list each mutating operation leaves in the store -/

namespace TodoRouter

theorem getTodosList_add (doc : Doc) (now : Int) (text : String) :
    getTodosList (add_todo doc now text).2 =
      getTodosList doc ++ [{ id := u64cast now, text := text, done := false }] := by
  have hwf : ∀ t ∈ getTodosList doc ++
      [{ id := u64cast now, text := text, done := false : Todo }], t.id < 2 ^ 64 := by
    intro t ht
    rcases List.mem_append.mp ht with hmem | hmem
    · exact getTodosList_lt doc t hmem
    · rw [List.mem_singleton.mp hmem]
      exact u64cast_lt now
  exact getTodosList_setKey doc _ hwf

theorem getTodosList_remove (doc : Doc) (id : Nat) :
    getTodosList (remove_todo doc id).2 =
      (getTodosList doc).filter (fun t => t.id ≠ id) := by
  have hwf : ∀ t ∈ (getTodosList doc).filter (fun t => t.id ≠ id),
      t.id < 2 ^ 64 := by
    intro t ht
    exact getTodosList_lt doc t (List.mem_of_mem_filter ht)
  exact getTodosList_setKey doc _ hwf

theorem getTodosList_update (doc : Doc) (todo : Todo) :
    getTodosList (update_todo doc todo).2.1 =
      replaceFirst (getTodosList doc) todo := by
  cases hpos : position (fun t => t.id == todo.id) (getTodosList doc) with
  | none =>
      have hnone : ∀ t ∈ getTodosList doc, t.id ≠ todo.id := by
        intro t ht
        have := position_eq_none _ _ hpos t ht
        simpa using this
      simp only [update_todo, hpos]
      rw [replaceFirst_of_no_match _ _ hnone]
  | some i =>
      have hset := set_position_eq_replaceFirst (getTodosList doc) todo i hpos
      have hwf : ∀ t ∈ replaceFirst (getTodosList doc) todo, t.id < 2 ^ 64 := by
        intro t ht
        rcases replaceFirst_mem _ _ _ ht with hmem | rfl
        · exact getTodosList_lt doc t hmem
        · rcases position_some_mem _ _ _ hpos with ⟨x, hxmem, hxp⟩
          have hxid : x.id = t.id := by simpa using hxp
          rw [← hxid]
          exact getTodosList_lt doc x hxmem
      simp only [update_todo, hpos]
      rw [hset]
      exact getTodosList_setKey doc _ hwf

end TodoRouter

/-! ### Claim theorems -/

theorem applyOp_getTodos (doc : Doc) (op : Op) :
    TodoRouter.getTodosList (applyOp doc op) =
      refStep (TodoRouter.getTodosList doc) op := by
  cases op with
  | add now text => exact TodoRouter.getTodosList_add doc now text
  | remove id => exact TodoRouter.getTodosList_remove doc id
  | update todo => exact TodoRouter.getTodosList_update doc todo

/-- C1: for every finite sequence of serialized `add_todo`/`remove_todo`/
`update_todo` calls starting from any store state, a subsequent `get_todos`
returns exactly the list obtained by applying the corresponding
append/filter/replace operations of the reference model in order of
application — no lost updates. -/
theorem spec_C1 (doc : Doc) (ops : List Op) :
    TodoRouter.get_todos (runOps doc ops) =
      Except.ok (refRun (TodoRouter.getTodosList doc) ops) := by
  unfold TodoRouter.get_todos
  congr 1
  induction ops generalizing doc with
  | nil => rfl
  | cons op rest ih =>
      show TodoRouter.getTodosList (runOps (applyOp doc op) rest) =
        refRun (refStep (TodoRouter.getTodosList doc) op) rest
      rw [← applyOp_getTodos doc op]
      exact ih (applyOp doc op)

/-- C10: `remove_todo` removes every element whose id matches (not only the
first), keeping the remaining elements in relative order — it is exactly a
filter — while `update_todo` replaces only the first element whose id
matches. -/
theorem spec_C10 (doc : Doc) (id : Nat) (todo : Todo) :
    TodoRouter.getTodosList (TodoRouter.remove_todo doc id).2 =
      (TodoRouter.getTodosList doc).filter (fun t => t.id ≠ id) ∧
    TodoRouter.getTodosList (TodoRouter.update_todo doc todo).2.1 =
      replaceFirst (TodoRouter.getTodosList doc) todo :=
  ⟨TodoRouter.getTodosList_remove doc id, TodoRouter.getTodosList_update doc todo⟩

/-- C4: a successful `remove_todo id` leaves no element with that id in a
subsequent `get_todos`, and removing an id that is not present succeeds
(returns `Ok`) and leaves the stored todo sequence unchanged. -/
theorem spec_C4 (doc : Doc) (id : Nat) :
    (TodoRouter.remove_todo doc id).1 = Except.ok () ∧
    (∀ t ∈ TodoRouter.getTodosList (TodoRouter.remove_todo doc id).2,
      t.id ≠ id) ∧
    ((∀ t ∈ TodoRouter.getTodosList doc, t.id ≠ id) →
      TodoRouter.getTodosList (TodoRouter.remove_todo doc id).2 =
        TodoRouter.getTodosList doc) := by
  refine ⟨rfl, ?_, ?_⟩
  · intro t ht
    rw [TodoRouter.getTodosList_remove] at ht
    have := List.of_mem_filter ht
    simpa using this
  · intro hno
    rw [TodoRouter.getTodosList_remove]
    apply List.filter_eq_self.mpr
    intro a ha
    simpa using hno a ha

def docA : Doc := [("todos", encodeTodos [{ id := 5, text := "a", done := false }])]

/-- Witness for C4 at a concrete store and id. -/
theorem spec_C4_witness :
    (TodoRouter.remove_todo docA 7).1 = Except.ok () ∧
    (∀ t ∈ TodoRouter.getTodosList (TodoRouter.remove_todo docA 7).2,
      t.id ≠ 7) ∧
    TodoRouter.getTodosList (TodoRouter.remove_todo docA 7).2 =
      TodoRouter.getTodosList docA :=
  ⟨(spec_C4 docA 7).1, (spec_C4 docA 7).2.1,
    (spec_C4 docA 7).2.2 (by decide)⟩

/-- C5: `update_todo` with an id that occurs nowhere in the store succeeds,
leaves the stored document unchanged, and still performs the save (a no-op
persist). -/
theorem spec_C5 (doc : Doc) (todo : Todo)
    (h : ∀ t ∈ TodoRouter.getTodosList doc, t.id ≠ todo.id) :
    (TodoRouter.update_todo doc todo).1 = Except.ok () ∧
    (TodoRouter.update_todo doc todo).2.1 = doc ∧
    StoreEff.save ∈ (TodoRouter.update_todo doc todo).2.2 := by
  have hpos : TodoRouter.position (fun t => t.id == todo.id)
      (TodoRouter.getTodosList doc) = none := by
    cases hp : TodoRouter.position (fun t => t.id == todo.id)
        (TodoRouter.getTodosList doc) with
    | none => rfl
    | some i =>
        rcases position_some_mem _ _ _ hp with ⟨t, hmem, hpt⟩
        exact absurd (by simpa using hpt) (h t hmem)
  simp [TodoRouter.update_todo, hpos]

/-- Witness for C5 at a concrete store and absent id. -/
theorem spec_C5_witness :
    (TodoRouter.update_todo docA { id := 2, text := "x", done := true }).1 =
      Except.ok () ∧
    (TodoRouter.update_todo docA { id := 2, text := "x", done := true }).2.1 =
      docA ∧
    StoreEff.save ∈
      (TodoRouter.update_todo docA { id := 2, text := "x", done := true }).2.2 :=
  spec_C5 docA { id := 2, text := "x", done := true } (by decide)

/-- C9: when the stored document has no `"todos"` key, or the value under
that key does not deserialize as a list of todos, `get_todos` succeeds and
returns the empty list. -/
theorem spec_C9 (doc : Doc)
    (h : doc.getKey TodoRouter.TODOS_KEY = none ∨
      ∃ v, doc.getKey TodoRouter.TODOS_KEY = some v ∧ decodeTodos v = none) :
    TodoRouter.get_todos doc = Except.ok [] := by
  unfold TodoRouter.get_todos TodoRouter.getTodosList
  rcases h with h | ⟨v, hv, hdec⟩
  · rw [h]; rfl
  · rw [hv, Option.some_bind, hdec]; rfl

/-- Witness for C9: a document whose `"todos"` value is a number, and one
with no `"todos"` key at all. -/
theorem spec_C9_witness :
    TodoRouter.get_todos [("todos", Json.num 3)] = Except.ok [] ∧
    TodoRouter.get_todos ([] : Doc) = Except.ok [] :=
  ⟨spec_C9 [("todos", Json.num 3)] (Or.inr ⟨Json.num 3, rfl, rfl⟩),
    spec_C9 ([] : Doc) (Or.inl rfl)⟩

theorem replaceFirst_map_id (ts : List Todo) (todo : Todo) :
    (replaceFirst ts todo).map Todo.id = ts.map Todo.id := by
  induction ts with
  | nil => rfl
  | cons x rest ih =>
      by_cases hx : x.id = todo.id
      · simp [replaceFirst, if_pos hx, hx]
      · simp [replaceFirst, if_neg hx, ih]

/-- C2 counterexample: with the store already holding a todo of id 5 and the
clock reading 5 at the call, `add_todo` returns a todo whose id equals an id
that was present before the call — the claim fails at this store state. -/
theorem spec_C2_counterexample :
    (TodoRouter.add_todo docA 5 "b").1 =
      Except.ok { id := 5, text := "b", done := false } ∧
    5 ∈ (TodoRouter.getTodosList docA).map Todo.id :=
  ⟨rfl, by decide⟩

/-- C2 amended: `add_todo` returns a todo whose id is the millisecond clock
value cast to `u64`; that id is distinct from every id present before the
call exactly when the clock value does not already occur in the store, and
under that freshness condition id-uniqueness of the stored sequence is
preserved by `add_todo`, while `remove_todo` and `update_todo` preserve it
unconditionally. -/
theorem spec_C2_amended (doc : Doc) (now : Int) (text : String) (id : Nat)
    (todo : Todo)
    (hfresh : u64cast now ∉ (TodoRouter.getTodosList doc).map Todo.id)
    (hnodup : ((TodoRouter.getTodosList doc).map Todo.id).Nodup) :
    (TodoRouter.add_todo doc now text).1 =
      Except.ok { id := u64cast now, text := text, done := false } ∧
    u64cast now ∉ (TodoRouter.getTodosList doc).map Todo.id ∧
    ((TodoRouter.getTodosList (TodoRouter.add_todo doc now text).2).map
      Todo.id).Nodup ∧
    ((TodoRouter.getTodosList (TodoRouter.remove_todo doc id).2).map
      Todo.id).Nodup ∧
    ((TodoRouter.getTodosList (TodoRouter.update_todo doc todo).2.1).map
      Todo.id).Nodup := by
  refine ⟨rfl, hfresh, ?_, ?_, ?_⟩
  · rw [TodoRouter.getTodosList_add, List.map_append]
    refine List.Nodup.append hnodup (by simp) ?_
    intro a ha hb
    simp at hb
    rw [hb] at ha
    exact hfresh ha
  · rw [TodoRouter.getTodosList_remove]
    exact hnodup.sublist (List.Sublist.map Todo.id (List.filter_sublist _))
  · rw [TodoRouter.getTodosList_update, replaceFirst_map_id]
    exact hnodup

/-- Witness for the amended C2 at a concrete store, clock and arguments. -/
theorem spec_C2_witness :
    (TodoRouter.add_todo docA 7 "b").1 =
      Except.ok { id := u64cast 7, text := "b", done := false } ∧
    u64cast 7 ∉ (TodoRouter.getTodosList docA).map Todo.id ∧
    ((TodoRouter.getTodosList (TodoRouter.add_todo docA 7 "b").2).map
      Todo.id).Nodup ∧
    ((TodoRouter.getTodosList (TodoRouter.remove_todo docA 5).2).map
      Todo.id).Nodup ∧
    ((TodoRouter.getTodosList
      (TodoRouter.update_todo docA { id := 9, text := "x", done := true }).2.1).map
      Todo.id).Nodup :=
  spec_C2_amended docA 7 "b" 5 { id := 9, text := "x", done := true }
    (by decide) (by decide)

/-- C3: the router advertises every capability category as disabled
(`with_tools(false)`, `with_resources(false, false)`, `with_prompts(false)`)
yet still serves the full four-tool catalog through `list_tools` and serves
tool calls through `call_tool` — the capability flags do not gate handler
availability, contradicting the claim that a disabled category is not
queryable. -/
theorem spec_C3 :
    TodoRouter.capabilities.toolsEnabled = false ∧
    (TodoRouter.list_tools).map Tool.name =
      ["get_todos", "add_todo", "remove_todo", "update_todo"] ∧
    ∀ doc : Doc, ∀ now : Int,
      TodoRouter.call_tool doc now "get_todos" Json.null =
        (Except.ok [Content.text
          (printJson (encodeTodos (TodoRouter.getTodosList doc)))], doc) := by
  refine ⟨rfl, rfl, fun doc now => ?_⟩
  rfl

/-- C7: `call_tool` with a name outside the catalog fails with
`NotFound(name)` and leaves the document unchanged; `call_tool("add_todo")`
with a missing or non-string `text` argument fails with
`InvalidParameters("text")` and leaves the document unchanged. -/
theorem spec_C7 (doc : Doc) (now : Int) (name : String) (args : Json)
    (hname : name ∉ (TodoRouter.list_tools).map Tool.name)
    (hargs : (args.index "text").asStr = none) :
    TodoRouter.call_tool doc now name args =
      (Except.error (ToolError.notFound name), doc) ∧
    TodoRouter.call_tool doc now "add_todo" args =
      (Except.error (ToolError.invalidParameters "text"), doc) := by
  have hns : ¬name = "get_todos" ∧ ¬name = "add_todo" ∧
      ¬name = "remove_todo" ∧ ¬name = "update_todo" := by
    simp [TodoRouter.list_tools] at hname
    exact ⟨hname.1, hname.2.1, hname.2.2.1, hname.2.2.2⟩
  constructor
  · unfold TodoRouter.call_tool
    rw [if_neg hns.1, if_neg hns.2.1, if_neg hns.2.2.1, if_neg hns.2.2.2]
  · unfold TodoRouter.call_tool
    rw [if_neg (show ¬("add_todo" = "get_todos") by decide), if_pos rfl, hargs]

/-- Witness for C7: an unregistered tool name and an argument object with no
`text` field. -/
theorem spec_C7_witness :
    TodoRouter.call_tool docA 0 "frobnicate" (Json.obj []) =
      (Except.error (ToolError.notFound "frobnicate"), docA) ∧
    TodoRouter.call_tool docA 0 "add_todo" (Json.obj []) =
      (Except.error (ToolError.invalidParameters "text"), docA) :=
  spec_C7 docA 0 "frobnicate" (Json.obj []) (by decide) rfl

def docX : Doc := [("todos", encodeTodos [{ id := 1, text := "x", done := false }])]

/-- C6 counterexample: from a store state that already holds a todo with
text `"x"` and done `false`, `add_todo("x")` leads to a `get_todos` list
with two such elements, not exactly one. -/
theorem spec_C6_counterexample :
    ((TodoRouter.getTodosList (TodoRouter.add_todo docX 2 "x").2).filter
      (fun t => t.text == "x" && t.done == false)).length = 2 := by
  decide

/-- C6 amended: starting from a store whose decoded todos contain no element
with the given text and done `false`, `add_todo(text)` followed by
`get_todos` yields exactly one such element. -/
theorem spec_C6_amended (doc : Doc) (now : Int) (text : String)
    (h : (TodoRouter.getTodosList doc).filter
      (fun t => t.text == text && t.done == false) = []) :
    ((TodoRouter.getTodosList (TodoRouter.add_todo doc now text).2).filter
      (fun t => t.text == text && t.done == false)).length = 1 := by
  rw [TodoRouter.getTodosList_add, List.filter_append, h]
  simp

/-- Witness for the amended C6 from the empty store. -/
theorem spec_C6_witness :
    ((TodoRouter.getTodosList (TodoRouter.add_todo ([] : Doc) 3 "x").2).filter
      (fun t => t.text == "x" && t.done == false)).length = 1 :=
  spec_C6_amended ([] : Doc) 3 "x" rfl
